import Mathlib

/-!
# Verification of the verum-web chat orchestration core

Shallow embedding of the AI-provider orchestration layer of
`verum-web/functions/index.js`: text normalization and the pairwise
Jaccard similarity used by `consensus2of3`, the per-model circuit
breaker, the `callOpenAIOnce` / `openaiTriple` fan-out, and the
`POST /v1/chat` handler (validation, message shaping and dispatch).

Conventions of the embedding:
* JavaScript strings are Lean `String`s; `.length` is measured in
  characters (the repository only ever compares lengths of plain text).
* `Date.now()` timestamps are `Nat` milliseconds passed explicitly.
* Floating-point similarity scores are modelled as exact rationals
  (`ℚ`); every score is a quotient of two small naturals.
* The breaker `Map` is modelled as a total function `String → BState`;
  a key absent from the JS `Map` behaves exactly like the present entry
  `{failures: 0, trippedUntil: 0}` in all three breaker operations
  (`(b.trippedUntil || 0) <= Date.now()` and the
  `|| { failures: 0, trippedUntil: 0 }` default), so the total-function
  model with default `⟨0, 0⟩` is faithful.
* Network effects are an oracle `String → TransportResult` giving, per
  model, the settled outcome of the single HTTPS call the code makes.
-/

namespace VerumWeb

/-! ## Text normalization (`normalizeText`, index.js lines 133-139)

`normalizeText` is
`(s || "").replace(/\s+/g, " ").replace(/[^\w\s.,;:!?()-]/g, "").trim().toLowerCase()`.
-/

/-- The character class `\s` of a JavaScript regular expression
(WhiteSpace ∪ LineTerminator). -/
def jsWs (c : Char) : Bool :=
  c == ' ' || c == '\t' || c == '\n' || c == '\r' ||
  c.toNat == 0x0B || c.toNat == 0x0C ||
  c.toNat == 0xA0 || c.toNat == 0x1680 ||
  (0x2000 ≤ c.toNat && c.toNat ≤ 0x200A) ||
  c.toNat == 0x2028 || c.toNat == 0x2029 ||
  c.toNat == 0x202F || c.toNat == 0x205F ||
  c.toNat == 0x3000 || c.toNat == 0xFEFF

/-- The character class `\w` of a JavaScript regular expression:
ASCII letters, digits and underscore. -/
def jsWord (c : Char) : Bool :=
  (0x61 ≤ c.toNat && c.toNat ≤ 0x7A) ||
  (0x41 ≤ c.toNat && c.toNat ≤ 0x5A) ||
  (0x30 ≤ c.toNat && c.toNat ≤ 0x39) ||
  c == '_'

/-- Characters kept by `.replace(/[^\w\s.,;:!?()-]/g, "")`: word
characters, whitespace, and the listed basic punctuation. -/
def keepChar (c : Char) : Bool :=
  jsWord c || jsWs c || c == '.' || c == ',' || c == ';' || c == ':' ||
  c == '!' || c == '?' || c == '(' || c == ')' || c == '-'

/-- `.replace(/\s+/g, " ")`: every maximal run of whitespace becomes a
single space. -/
def collapseWS : List Char → List Char
  | [] => []
  | [c] => if jsWs c then [' '] else [c]
  | c :: d :: rest =>
    if jsWs c then
      if jsWs d then collapseWS (d :: rest)
      else ' ' :: collapseWS (d :: rest)
    else c :: collapseWS (d :: rest)

/-- `String.prototype.trim()`: strip leading and trailing whitespace. -/
def trimWS (l : List Char) : List Char :=
  ((l.dropWhile jsWs).reverse.dropWhile jsWs).reverse

/-- `normalizeText` of index.js lines 133-139.  After the whitespace
collapse and the strip every remaining character is ASCII, so
`Char.toLower` agrees with JavaScript `toLowerCase` on the result. -/
def normalizeText (s : String) : String :=
  String.mk ((trimWS ((collapseWS s.data).filter keepChar)).map Char.toLower)

/-- JavaScript `String.prototype.split(" ")` (split on every single
space; no trimming, adjacent separators produce empty fragments, and
`"".split(" ")` is `[""]`). -/
def splitSpAux : List Char → List Char → List String
  | [], acc => [String.mk acc.reverse]
  | c :: rest, acc =>
    if c == ' ' then String.mk acc.reverse :: splitSpAux rest []
    else splitSpAux rest (c :: acc)

/-- `normalizeText(s).split(" ")`, the token list fed into a JS `Set`. -/
def tokens (s : String) : List String :=
  splitSpAux (normalizeText s).data []

/-- `new Set(normalizeText(s).split(" "))`. -/
def tokenSet (s : String) : Finset String :=
  (tokens s).toFinset

/-- The inline Jaccard similarity of `consensus2of3`
(index.js lines 146-150):
`inter = [...a].filter(x => b.has(x)).length`,
`uni = new Set([...a,...b]).size || 1`, score `inter / uni`. -/
def simScore (a b : String) : ℚ :=
  ((tokenSet a ∩ tokenSet b).card : ℚ) /
    (if (tokenSet a ∪ tokenSet b).card = 0 then 1
     else ((tokenSet a ∪ tokenSet b).card : ℚ))

/-! ### Basic facts about the similarity score -/

theorem splitSpAux_ne_nil (l acc : List Char) : splitSpAux l acc ≠ [] := by
  induction l generalizing acc with
  | nil => simp [splitSpAux]
  | cons c rest ih =>
    simp only [splitSpAux]
    split
    · simp
    · exact ih _

theorem tokens_ne_nil (s : String) : tokens s ≠ [] :=
  splitSpAux_ne_nil _ _

theorem tokenSet_nonempty (s : String) : (tokenSet s).Nonempty := by
  obtain ⟨t, ts, h⟩ := List.exists_cons_of_ne_nil (tokens_ne_nil s)
  exact ⟨t, by simp [tokenSet, h]⟩

theorem simScore_nonneg (a b : String) : 0 ≤ simScore a b := by
  unfold simScore
  apply div_nonneg
  · positivity
  · split
    · norm_num
    · positivity

theorem simScore_le_one (a b : String) : simScore a b ≤ 1 := by
  unfold simScore
  have hsub : tokenSet a ∩ tokenSet b ⊆ tokenSet a ∪ tokenSet b :=
    (Finset.inter_subset_left).trans Finset.subset_union_left
  have hcard := Finset.card_le_card hsub
  split
  · rename_i h0
    have : (tokenSet a ∩ tokenSet b).card = 0 := Nat.le_zero.mp (h0 ▸ hcard)
    simp [this]
  · rename_i h0
    rw [div_le_one (by positivity)]
    exact_mod_cast hcard

theorem simScore_self (a : String) : simScore a a = 1 := by
  unfold simScore
  have hne : (tokenSet a).card ≠ 0 :=
    (Finset.card_pos.mpr (tokenSet_nonempty a)).ne'
  simp only [Finset.inter_self, Finset.union_self]
  rw [if_neg hne]
  exact div_self (by exact_mod_cast hne)

theorem simScore_comm (a b : String) : simScore a b = simScore b a := by
  unfold simScore
  rw [Finset.inter_comm, Finset.union_comm]

/-- C8: the similarity score is symmetric: `score(a,b) == score(b,a)`
for every pair of texts. -/
theorem C8_simScore_symmetric (a b : String) : simScore a b = simScore b a :=
  simScore_comm a b

/-- C7 counterexample: the claim asserts `score("","") == 0`, but in the
source `"".split(" ")` yields `[""]`, so both token sets are the
singleton `{""}` and the score is `1/1 = 1`, not `0`. -/
theorem C7_counterexample : simScore "" "" = 1 ∧ simScore "" "" ≠ 0 := by
  constructor
  · exact simScore_self ""
  · rw [simScore_self ""]; norm_num

/-- C7 (amended): the similarity score lies in `[0,1]` for all input
pairs, and `score(a,a) = 1` for every text `a`, the empty text
included: splitting a normalized text on `" "` always yields at least
one token (the empty token for the empty text), so the token sets are
never empty, the `|| 1` division-by-zero guard never fires, and
`score("","") = 1`. -/
theorem C7_simScore_bounds :
    (∀ a b : String, 0 ≤ simScore a b ∧ simScore a b ≤ 1) ∧
    (∀ a : String, simScore a a = 1) ∧ simScore "" "" = 1 :=
  ⟨fun a b => ⟨simScore_nonneg a b, simScore_le_one a b⟩,
   simScore_self, simScore_self ""⟩

/-! ## Consensus (`consensus2of3`, index.js lines 140-158) -/

/-- One successful model call: `{ model, content }` (the `raw` JSON is
carried by the source but never read by the core). -/
structure MResult where
  model : String
  content : String
deriving DecidableEq

/-- One entry of the `sims` pair-score table: `{ i, j, score }`. -/
structure SimEntry where
  i : Nat
  j : Nat
  score : ℚ
deriving DecidableEq

/-- Default used for the (unreachable) out-of-range list accesses. -/
def dR : MResult := ⟨"", ""⟩

/-- Default mirroring the dead `|| { score: 0 }` fallback. -/
def dSim : SimEntry := ⟨0, 0, 0⟩

/-- The nested loop `for i ...; for j = i+1 ...` pushing
`{i, j, score}` entries in ascending `(i, j)` enumeration order. -/
def pairSims (rs : List MResult) : List SimEntry :=
  (List.range rs.length).flatMap fun i =>
    (List.range' (i + 1) (rs.length - (i + 1))).map fun j =>
      ⟨i, j, simScore (rs.getD i dR).content (rs.getD j dR).content⟩

/-- `sims.sort((x, y) => y.score - x.score)`: JavaScript `Array.sort`
is a stable sort, here ordered by descending score.  Any stable sort
for a total preorder has the same output; we use insertion sort. -/
def sortSims (l : List SimEntry) : List SimEntry :=
  l.insertionSort fun x y => y.score ≤ x.score

/-- `consensus2of3` of index.js lines 140-158.  The zero- and
one-success returns carry only the fields the source object has
(`winner`/`pair`/`sims` absent ≈ `none`/`[]`/`[]`).  For two or more
successes, `best` is `sims.sort(...)[0] || {score: 0}`, `pass` is
`best.score >= 0.6`, the winner is the longer-content member of the
best pair (the first member on a tie), and the returned `sims` is the
sorted table (the JS sort mutates `sims` in place). -/
structure ConsOut where
  consensus : String
  winner : Option MResult
  pair : List MResult
  sims : List SimEntry
deriving DecidableEq

def consensus2of3 (results : List MResult) : ConsOut :=
  match results with
  | [] => ⟨"fail", none, [], []⟩
  | [r] => ⟨"weak", some r, [], []⟩
  | _ :: _ :: _ =>
    let sims := sortSims (pairSims results)
    let best := sims.headD dSim
    if (0.6 : ℚ) ≤ best.score then
      let p0 := results.getD best.i dR
      let p1 := results.getD best.j dR
      ⟨"pass", some (if p1.content.length ≤ p0.content.length then p0 else p1),
        [p0, p1], sims⟩
    else
      ⟨"fail", none, [], sims⟩

/-! ### The sorted head is the first entry attaining the maximal score -/

/-- The first element of the list attaining the maximal `score` (the
head of a stable descending sort). -/
def bestSim (d : SimEntry) : List SimEntry → SimEntry
  | [] => d
  | e :: rest =>
    if rest.all (fun b => decide (b.score ≤ e.score)) then e else bestSim d rest

theorem bestSim_mem (d : SimEntry) {l : List SimEntry} (h : l ≠ []) :
    bestSim d l ∈ l := by
  induction l with
  | nil => exact absurd rfl h
  | cons e rest ih =>
    simp only [bestSim]
    split
    · exact List.mem_cons_self e rest
    · rename_i hall
      have hne : rest ≠ [] := by
        rintro rfl; simp at hall
      exact List.mem_cons_of_mem e (ih hne)

theorem bestSim_le (d : SimEntry) (l : List SimEntry) :
    ∀ e ∈ l, e.score ≤ (bestSim d l).score := by
  induction l with
  | nil => intro e he; simp at he
  | cons a rest ih =>
    intro e he
    simp only [bestSim]
    split
    · rename_i hall
      rcases List.mem_cons.mp he with rfl | hr
      · exact le_rfl
      · exact of_decide_eq_true (List.all_eq_true.mp hall e hr)
    · rename_i hall
      rcases List.mem_cons.mp he with rfl | hr
      · rw [List.all_eq_true] at hall
        push_neg at hall
        obtain ⟨b, hb, hnb⟩ := hall
        have hlt : e.score < b.score :=
          not_le.mp fun hle => hnb (decide_eq_true hle)
        exact (le_of_lt hlt).trans (ih b hb)
      · exact ih e hr

theorem bestSim_first (d : SimEntry) {l : List SimEntry} (h : l ≠ []) :
    ∃ l₁ l₂, l = l₁ ++ bestSim d l :: l₂ ∧
      ∀ e ∈ l₁, e.score < (bestSim d l).score := by
  induction l with
  | nil => exact absurd rfl h
  | cons a rest ih =>
    simp only [bestSim]
    split
    · exact ⟨[], rest, rfl, by intro e he; simp at he⟩
    · rename_i hall
      have hne : rest ≠ [] := by rintro rfl; simp at hall
      obtain ⟨l₁, l₂, heq, hlt⟩ := ih hne
      refine ⟨a :: l₁, l₂, ?_, ?_⟩
      · rw [List.cons_append]
        exact congrArg (List.cons a) heq
      · intro e he
        rcases List.mem_cons.mp he with rfl | hr
        · rw [List.all_eq_true] at hall
          push_neg at hall
          obtain ⟨b, hb, hnb⟩ := hall
          have hlt' : e.score < b.score :=
            not_le.mp fun hle => hnb (decide_eq_true hle)
          exact lt_of_lt_of_le hlt' (bestSim_le d rest b hb)
        · exact hlt e hr

theorem headD_orderedInsert (a x d : SimEntry) (xs : List SimEntry) :
    (List.orderedInsert (fun p q => q.score ≤ p.score) a (x :: xs)).headD d =
      if x.score ≤ a.score then a else x := by
  simp only [List.orderedInsert]
  split <;> simp

theorem headD_sortSims (d : SimEntry) (l : List SimEntry) :
    (sortSims l).headD d = bestSim d l := by
  induction l with
  | nil => rfl
  | cons a rest ih =>
    have key : sortSims (a :: rest) =
        List.orderedInsert (fun x y => y.score ≤ x.score) a (sortSims rest) := rfl
    rcases hrest : sortSims rest with _ | ⟨x, xs⟩
    · have hrnil : rest = [] := by
        have hlen := List.length_insertionSort
          (fun x y : SimEntry => y.score ≤ x.score) rest
        rw [show List.insertionSort (fun x y : SimEntry => y.score ≤ x.score) rest
          = sortSims rest from rfl, hrest] at hlen
        exact List.length_eq_zero.mp hlen.symm
      subst hrnil
      simp [sortSims, List.insertionSort, List.orderedInsert, bestSim]
    · have hx : x = bestSim d rest := by
        rw [← ih, hrest]; rfl
      have hrne : rest ≠ [] := by
        rintro rfl
        simp [sortSims, List.insertionSort] at hrest
      rw [key, hrest, headD_orderedInsert]
      simp only [bestSim]
      subst hx
      by_cases hall : (rest.all fun b => decide (b.score ≤ a.score)) = true
      · rw [if_pos (of_decide_eq_true
          (List.all_eq_true.mp hall _ (bestSim_mem d hrne))), if_pos hall]
      · rw [if_neg ?hc, if_neg hall]
        case hc =>
          intro hle
          apply hall
          rw [List.all_eq_true]
          intro b hb
          exact decide_eq_true ((bestSim_le d rest b hb).trans hle)

/-! ### Membership characterization of the pair table -/

theorem mem_pairSims {rs : List MResult} {e : SimEntry} :
    e ∈ pairSims rs ↔
      ∃ i j, i < j ∧ j < rs.length ∧
        e = ⟨i, j, simScore (rs.getD i dR).content (rs.getD j dR).content⟩ := by
  unfold pairSims
  constructor
  · intro he
    obtain ⟨i, hi, he⟩ := List.mem_flatMap.mp he
    obtain ⟨j, hj, rfl⟩ := List.mem_map.mp he
    rw [List.mem_range] at hi
    rw [List.mem_range'_1] at hj
    exact ⟨i, j, hj.1, by omega, rfl⟩
  · rintro ⟨i, j, hij, hj, rfl⟩
    apply List.mem_flatMap.mpr
    refine ⟨i, List.mem_range.mpr (by omega), ?_⟩
    apply List.mem_map.mpr
    exact ⟨j, List.mem_range'_1.mpr ⟨by omega, by omega⟩, rfl⟩

theorem pairSims_ne_nil {rs : List MResult} (h : 2 ≤ rs.length) :
    pairSims rs ≠ [] := by
  intro hnil
  have : (⟨0, 1, simScore (rs.getD 0 dR).content (rs.getD 1 dR).content⟩ :
      SimEntry) ∈ pairSims rs :=
    mem_pairSims.mpr ⟨0, 1, Nat.zero_lt_one, by omega, rfl⟩
  rw [hnil] at this
  simp at this

theorem mem_sortSims {l : List SimEntry} {e : SimEntry} :
    e ∈ sortSims l ↔ e ∈ l :=
  List.mem_insertionSort _

/-- When consensus is `"fail"`, there is no winner. -/
theorem consensus_fail_no_winner (rs : List MResult)
    (h : (consensus2of3 rs).consensus = "fail") :
    (consensus2of3 rs).winner = none := by
  unfold consensus2of3 at *
  match rs with
  | [] => rfl
  | [r] => simp at h
  | a :: b :: t =>
    simp only at h ⊢
    split at h
    · simp at h
    · rename_i hlt
      simp only [if_neg hlt]

/-- C2: `consensus2of3` on the empty list is `fail` with no winner; on
a singleton it is `weak` with that success as winner; with two or more
successes it scores every unordered pair in ascending-index order,
selects the maximal-score pair (ties broken by the first pair in
enumeration order — the head of the stable descending sort), and
returns `pass` with the longer-content pair member as winner (the
first member on a length tie) when the maximum is at least `0.6`, and
`fail` with no winner otherwise. -/
theorem C2_consensus2of3_spec :
    consensus2of3 [] = ⟨"fail", none, [], []⟩ ∧
    (∀ r, consensus2of3 [r] = ⟨"weak", some r, [], []⟩) ∧
    ∀ rs : List MResult, 2 ≤ rs.length →
      (∀ e, e ∈ (consensus2of3 rs).sims ↔
        ∃ i j, i < j ∧ j < rs.length ∧
          e = ⟨i, j, simScore (rs.getD i dR).content (rs.getD j dR).content⟩) ∧
      bestSim dSim (pairSims rs) ∈ pairSims rs ∧
      (∀ e ∈ pairSims rs, e.score ≤ (bestSim dSim (pairSims rs)).score) ∧
      (∃ l₁ l₂, pairSims rs = l₁ ++ bestSim dSim (pairSims rs) :: l₂ ∧
        ∀ e ∈ l₁, e.score < (bestSim dSim (pairSims rs)).score) ∧
      ((0.6 : ℚ) ≤ (bestSim dSim (pairSims rs)).score →
        (consensus2of3 rs).consensus = "pass" ∧
        (consensus2of3 rs).winner = some
          (if (rs.getD (bestSim dSim (pairSims rs)).j dR).content.length ≤
              (rs.getD (bestSim dSim (pairSims rs)).i dR).content.length
           then rs.getD (bestSim dSim (pairSims rs)).i dR
           else rs.getD (bestSim dSim (pairSims rs)).j dR)) ∧
      ((bestSim dSim (pairSims rs)).score < (0.6 : ℚ) →
        (consensus2of3 rs).consensus = "fail" ∧
        (consensus2of3 rs).winner = none) := by
  refine ⟨rfl, fun r => rfl, fun rs h2 => ?_⟩
  match rs, h2 with
  | a :: b :: t, _ =>
    have hsims : (consensus2of3 (a :: b :: t)).sims =
        sortSims (pairSims (a :: b :: t)) := by
      unfold consensus2of3
      simp only
      split <;> rfl
    have hbest : (sortSims (pairSims (a :: b :: t))).headD dSim =
        bestSim dSim (pairSims (a :: b :: t)) :=
      headD_sortSims _ _
    have h2' : 2 ≤ (a :: b :: t).length := by simp
    refine ⟨?_, bestSim_mem dSim (pairSims_ne_nil h2'),
      bestSim_le dSim _, bestSim_first dSim (pairSims_ne_nil h2'), ?_, ?_⟩
    · intro e
      rw [hsims, mem_sortSims, mem_pairSims]
    · intro hge
      unfold consensus2of3
      simp only
      rw [if_pos (hbest ▸ hge)]
      exact ⟨rfl, by rw [hbest]⟩
    · intro hlt
      unfold consensus2of3
      simp only
      rw [if_neg (by rw [hbest]; exact not_le.mpr hlt)]
      exact ⟨rfl, rfl⟩

/-- Witness for C2 at concrete inputs: two identical two-token
contents give the single pair score `1 ≥ 0.6`, verdict `pass`, and the
length tie is broken in favor of the first pair member. -/
theorem C2_witness :
    2 ≤ ([⟨"m1", "x y"⟩, ⟨"m2", "x y"⟩] : List MResult).length ∧
    (consensus2of3 [⟨"m1", "x y"⟩, ⟨"m2", "x y"⟩]).consensus = "pass" ∧
    (consensus2of3 [⟨"m1", "x y"⟩, ⟨"m2", "x y"⟩]).winner =
      some ⟨"m1", "x y"⟩ := by
  have hbest : bestSim dSim (pairSims [⟨"m1", "x y"⟩, ⟨"m2", "x y"⟩]) =
      ⟨0, 1, simScore "x y" "x y"⟩ := rfl
  have hge : (0.6 : ℚ) ≤
      (bestSim dSim (pairSims [⟨"m1", "x y"⟩, ⟨"m2", "x y"⟩])).score := by
    rw [hbest]
    show (0.6 : ℚ) ≤ simScore "x y" "x y"
    rw [simScore_self]
    norm_num
  have h := (C2_consensus2of3_spec.2.2 [⟨"m1", "x y"⟩, ⟨"m2", "x y"⟩]
    (by simp)).2.2.2.2.1 hge
  refine ⟨by simp, h.1, ?_⟩
  rw [h.2, hbest]
  simp

/-! ## Circuit breaker (index.js lines 100-122)

`const breaker = new Map()`, `FAIL_THRESHOLD = 3`,
`BREAKER_COOLDOWN_MS = 60_000`.  A key absent from the `Map` behaves in
all three operations exactly like the entry
`{failures: 0, trippedUntil: 0}` (`breakerAllowed` reads
`b.trippedUntil || 0` and `breakerReportFailure` starts from
`{failures: 0, trippedUntil: 0}`), so the registry is modelled as a
total function with that default. -/

/-- Per-model breaker entry `{ failures, trippedUntil }`. -/
structure BState where
  failures : Nat
  trippedUntil : Nat
deriving DecidableEq

/-- The breaker registry: model name to state, default `⟨0, 0⟩`. -/
def Breaker : Type := String → BState

def FAIL_THRESHOLD : Nat := 3

def BREAKER_COOLDOWN_MS : Nat := 60000

/-- `breakerAllowed(model)`: `!b || (b.trippedUntil || 0) <= Date.now()`. -/
def breakerAllowed (br : Breaker) (model : String) (now : Nat) : Bool :=
  (br model).trippedUntil ≤ now

/-- `breakerReportFailure(model)` at time `now`: increment `failures`;
on reaching the threshold, arm the cooldown from the call time and
reset the counter. -/
def breakerReportFailure (br : Breaker) (model : String) (now : Nat) : Breaker :=
  fun k =>
    if k = model then
      if FAIL_THRESHOLD ≤ (br model).failures + 1 then
        ⟨0, now + BREAKER_COOLDOWN_MS⟩
      else
        ⟨(br model).failures + 1, (br model).trippedUntil⟩
    else br k

/-- `breakerReportSuccess(model)`:
`breaker.set(model, { failures: 0, trippedUntil: 0 })`. -/
def breakerReportSuccess (br : Breaker) (model : String) : Breaker :=
  fun k => if k = model then ⟨0, 0⟩ else br k

/-- C3: for every model, starting from a state with zero consecutive
failures, exactly three consecutive `reportFailure` calls (no
intervening success) trip the breaker: the first two leave the
cooldown untouched (counting 1 then 2 failures), the third arms a
60-second cooldown measured from that tripping call and resets the
counter to 0, `isCallAllowed` is false at the tripping instant and
becomes true exactly when the cooldown has elapsed; and a single
`reportSuccess` at any time resets the state to zero failures and no
cooldown, making calls allowed immediately. -/
theorem C3_breaker_state_machine (br : Breaker) (m : String)
    (t1 t2 t3 t : Nat) (h0 : (br m).failures = 0) :
    ((breakerReportFailure br m t1) m).failures = 1 ∧
    ((breakerReportFailure br m t1) m).trippedUntil = (br m).trippedUntil ∧
    ((breakerReportFailure (breakerReportFailure br m t1) m t2) m).failures = 2 ∧
    ((breakerReportFailure (breakerReportFailure br m t1) m t2) m).trippedUntil
      = (br m).trippedUntil ∧
    ((breakerReportFailure (breakerReportFailure
        (breakerReportFailure br m t1) m t2) m t3) m)
      = ⟨0, t3 + BREAKER_COOLDOWN_MS⟩ ∧
    (breakerAllowed (breakerReportFailure (breakerReportFailure
        (breakerReportFailure br m t1) m t2) m t3) m t = true
      ↔ t3 + BREAKER_COOLDOWN_MS ≤ t) ∧
    breakerAllowed (breakerReportFailure (breakerReportFailure
        (breakerReportFailure br m t1) m t2) m t3) m t3 = false ∧
    (∀ br' : Breaker,
      (breakerReportSuccess br' m) m = ⟨0, 0⟩ ∧
      ∀ u, breakerAllowed (breakerReportSuccess br' m) m u = true) := by
  have step : ∀ (b : Breaker) (now : Nat), (breakerReportFailure b m now) m =
      if FAIL_THRESHOLD ≤ (b m).failures + 1 then
        ⟨0, now + BREAKER_COOLDOWN_MS⟩
      else ⟨(b m).failures + 1, (b m).trippedUntil⟩ := by
    intro b now
    simp [breakerReportFailure]
  have e1 : (breakerReportFailure br m t1) m =
      ⟨1, (br m).trippedUntil⟩ := by
    rw [step, h0]
    simp [FAIL_THRESHOLD]
  have e2 : (breakerReportFailure (breakerReportFailure br m t1) m t2) m =
      ⟨2, (br m).trippedUntil⟩ := by
    rw [step, e1]
    simp [FAIL_THRESHOLD]
  have e3 : (breakerReportFailure (breakerReportFailure
      (breakerReportFailure br m t1) m t2) m t3) m
      = ⟨0, t3 + BREAKER_COOLDOWN_MS⟩ := by
    rw [step, e2]
    simp [FAIL_THRESHOLD]
  refine ⟨by rw [e1], by rw [e1], by rw [e2], by rw [e2], e3, ?_, ?_, ?_⟩
  · rw [breakerAllowed, e3]
    exact decide_eq_true_iff
  · rw [breakerAllowed, e3]
    simp [BREAKER_COOLDOWN_MS]
  · intro br'
    refine ⟨by simp [breakerReportSuccess], fun u => ?_⟩
    simp [breakerAllowed, breakerReportSuccess]

/-- Witness for C3 at a concrete model and clock: three failures at
times 5, 6, 7 trip the breaker until 60007; it is blocked at 7 and
allowed again exactly at 60007. -/
theorem C3_witness :
    ((fun _ => (⟨0, 0⟩ : BState) : Breaker) "gpt-4o").failures = 0 ∧
    ((breakerReportFailure (breakerReportFailure (breakerReportFailure
        (fun _ => ⟨0, 0⟩) "gpt-4o" 5) "gpt-4o" 6) "gpt-4o" 7) "gpt-4o"
      = ⟨0, 7 + BREAKER_COOLDOWN_MS⟩) ∧
    (breakerAllowed (breakerReportFailure (breakerReportFailure
        (breakerReportFailure (fun _ => ⟨0, 0⟩) "gpt-4o" 5) "gpt-4o" 6)
        "gpt-4o" 7) "gpt-4o" 60007 = true ↔ 7 + BREAKER_COOLDOWN_MS ≤ 60007) := by
  have h := C3_breaker_state_machine (fun _ => ⟨0, 0⟩) "gpt-4o" 5 6 7 60007 rfl
  exact ⟨rfl, h.2.2.2.2.1, h.2.2.2.2.2.1⟩

/-! ## Provider calls (`callOpenAIOnce` / `openaiTriple`,
index.js lines 160-201) -/

/-- A JavaScript value in a message's `content` position: a string, or
anything else (number, object, `undefined`, ...), which only matters
for the `typeof m.content !== "string"` validation check. -/
inductive JVal where
  | str (s : String)
  | other (tag : String)
deriving DecidableEq

/-- A chat message `{ role, content }`. -/
structure JMsg where
  role : String
  content : JVal
deriving DecidableEq

/-- The settled outcome of the single HTTPS request `callOpenAIOnce`
makes for one model: a 2xx response whose
`json?.choices?.[0]?.message?.content` is present (or absent /
falsy, yielding `""`), a non-2xx status with a body text, or a
transport/timeout error with an exception message. -/
inductive TransportResult where
  | ok (content : Option String)
  | httpError (status : Nat) (body : String)
  | netError (msg : String)
deriving DecidableEq

/-- One breaker bookkeeping event recorded against a model. -/
inductive BEvent where
  | fail
  | succ
deriving DecidableEq

/-- JavaScript `String.prototype.startsWith`. -/
def jsStartsWith (p s : String) : Bool :=
  p.data.isPrefixOf s.data

/-- Replay a list of breaker events for one model, all at time `now`. -/
def applyEvents (br : Breaker) (model : String) (now : Nat) :
    List BEvent → Breaker
  | [] => br
  | BEvent.fail :: es =>
    applyEvents (breakerReportFailure br model now) model now es
  | BEvent.succ :: es =>
    applyEvents (breakerReportSuccess br model) model now es

/-- The result of one `callOpenAIOnce(model, ...)` invocation:
`outcome` is the fulfilled value or the thrown error message,
`events` the breaker bookkeeping performed (in order), and
`attempted` whether the HTTPS request to the provider was issued. -/
structure CallRet where
  outcome : Except String MResult
  events : List BEvent
  attempted : Bool

/-- `callOpenAIOnce` (index.js lines 160-191).  If the breaker
disallows the model it throws `breaker_tripped:<model>` before any
network activity.  Otherwise: on a 2xx response it reports success and
returns `{model, content}` with absent content coerced to `""`; on a
non-2xx response it reports a failure, throws
`openai <model> <status>: <body>`, and the catch block — whose guard
`!String(e.message).startsWith("breaker_tripped:")` is true for such a
message — reports a second failure; on a transport error it reports
one failure from the catch block (unless the exception message itself
starts with `breaker_tripped:`). -/
def callOpenAIOnce (allowed : Bool) (tr : TransportResult)
    (model : String) : CallRet :=
  if allowed then
    match tr with
    | TransportResult.ok c =>
      ⟨Except.ok ⟨model, c.getD ""⟩, [BEvent.succ], true⟩
    | TransportResult.httpError st body =>
      let msg := "openai " ++ model ++ " " ++ toString st ++ ": " ++ body
      ⟨Except.error msg,
        if jsStartsWith "breaker_tripped:" msg then [BEvent.fail]
        else [BEvent.fail, BEvent.fail], true⟩
    | TransportResult.netError msg =>
      ⟨Except.error msg,
        if jsStartsWith "breaker_tripped:" msg then [] else [BEvent.fail], true⟩
  else
    ⟨Except.error ("breaker_tripped:" ++ model), [], false⟩

/-- The fixed roster `OPENAI_MODELS` (index.js line 101). -/
def OPENAI_MODELS : List String := ["gpt-5-mini", "gpt-4o-mini", "gpt-4o"]

/-- Candidate model selection of `openaiTriple` (index.js lines
193-195): the override alone if given, else the roster filtered by the
breaker; if the resulting list is empty, `OPENAI_MODELS[0]`. -/
def selectModels (br : Breaker) (now : Nat) (ov : Option String) :
    List String :=
  let models := match ov with
    | some m => [m]
    | none => OPENAI_MODELS.filter fun m => breakerAllowed br m now
  if models.isEmpty then [OPENAI_MODELS.getD 0 ""] else models

/-- The value of one fan-out invocation, together with the breaker
state after all settlements and the list of provider calls actually
issued (model plus forwarded message sequence). -/
structure TripleOut where
  successes : List MResult
  errors : List String
  consensus : String
  winner : Option MResult
  sims : List SimEntry
  breaker : Breaker
  calls : List (String × List JMsg)

/-- `openaiTriple` (index.js lines 193-201): select candidates, run
`callOpenAIOnce` per candidate (each breaker check happens
synchronously at dispatch, before any settlement, hence against the
entry breaker state; `Promise.allSettled` preserves input order and
never short-circuits), partition into fulfilled values and rejection
messages, replay each call's breaker bookkeeping, and reconcile the
successes with `consensus2of3`. -/
def openaiTriple (br : Breaker) (now : Nat)
    (tr : String → TransportResult) (msgs : List JMsg)
    (ov : Option String) : TripleOut :=
  let models := selectModels br now ov
  let rets := models.map fun m =>
    (m, callOpenAIOnce (breakerAllowed br m now) (tr m) m)
  let successes := rets.filterMap fun p => p.2.outcome.toOption
  let errors := rets.filterMap fun p =>
    match p.2.outcome with
    | Except.error e => some e
    | Except.ok _ => none
  let c := consensus2of3 successes
  ⟨successes, errors, c.consensus, c.winner, c.sims,
    rets.foldl (fun b p => applyEvents b p.1 now p.2.events) br,
    rets.filterMap fun p => if p.2.attempted then some (p.1, msgs) else none⟩

/-- C5: for every settled fan-out call, a success reports exactly one
breaker success; a call rejected because the breaker already
disallowed the model performs no breaker bookkeeping at all (and hence
leaves failure count and cooldown unchanged) and issues no network
request; a non-2xx response reports failures (twice: once before the
throw and once in the catch block); a transport error whose message
does not carry the `breaker_tripped:` marker reports one failure. -/
theorem C5_breaker_reporting (allowed : Bool) (tr : TransportResult)
    (model : String) (br : Breaker) (now : Nat) :
    (∀ c, tr = TransportResult.ok c → allowed = true →
      (callOpenAIOnce allowed tr model).events = [BEvent.succ]) ∧
    (allowed = false →
      (callOpenAIOnce allowed tr model).events = [] ∧
      (callOpenAIOnce allowed tr model).attempted = false ∧
      applyEvents br model now (callOpenAIOnce allowed tr model).events = br) ∧
    (∀ st body, tr = TransportResult.httpError st body → allowed = true →
      (callOpenAIOnce allowed tr model).events = [BEvent.fail, BEvent.fail]) ∧
    (∀ msg, tr = TransportResult.netError msg → allowed = true →
      jsStartsWith "breaker_tripped:" msg = false →
      (callOpenAIOnce allowed tr model).events = [BEvent.fail]) := by
  refine ⟨?_, ?_, ?_, ?_⟩
  · rintro c rfl rfl
    rfl
  · rintro rfl
    exact ⟨rfl, rfl, rfl⟩
  · rintro st body rfl rfl
    have hpre : jsStartsWith "breaker_tripped:"
        ("openai " ++ model ++ " " ++ toString st ++ ": " ++ body) = false := by
      simp [jsStartsWith, String.data_append, List.isPrefixOf]
    simp [callOpenAIOnce, hpre]
  · rintro msg rfl rfl hpre
    simp [callOpenAIOnce, hpre]

/-- Witness for C5 at concrete inputs: a 2xx call reports one success;
a breaker-rejected call reports nothing, is not attempted, and leaves
the breaker unchanged; a 500 response reports two failures; an abort
error reports one failure. -/
theorem C5_witness :
    (callOpenAIOnce true (TransportResult.ok (some "hi")) "gpt-4o").events
      = [BEvent.succ] ∧
    ((callOpenAIOnce false (TransportResult.ok (some "hi")) "gpt-4o").events = []
      ∧ (callOpenAIOnce false (TransportResult.ok (some "hi")) "gpt-4o").attempted
        = false
      ∧ applyEvents (fun _ => ⟨2, 9⟩) "gpt-4o" 3
          (callOpenAIOnce false (TransportResult.ok (some "hi")) "gpt-4o").events
        = (fun _ => ⟨2, 9⟩)) ∧
    (callOpenAIOnce true (TransportResult.httpError 500 "boom") "gpt-4o").events
      = [BEvent.fail, BEvent.fail] ∧
    (callOpenAIOnce true (TransportResult.netError "This operation was aborted")
        "gpt-4o").events = [BEvent.fail] :=
  ⟨(C5_breaker_reporting true (TransportResult.ok (some "hi")) "gpt-4o"
      (fun _ => ⟨2, 9⟩) 3).1 (some "hi") rfl rfl,
   (C5_breaker_reporting false (TransportResult.ok (some "hi")) "gpt-4o"
      (fun _ => ⟨2, 9⟩) 3).2.1 rfl,
   (C5_breaker_reporting true (TransportResult.httpError 500 "boom") "gpt-4o"
      (fun _ => ⟨2, 9⟩) 3).2.2.1 500 "boom" rfl rfl,
   (C5_breaker_reporting true
      (TransportResult.netError "This operation was aborted") "gpt-4o"
      (fun _ => ⟨2, 9⟩) 3).2.2.2 "This operation was aborted" rfl rfl (by decide)⟩

/-- A breaker state in which every model of the roster is tripped
until time 1000000. -/
def brAllTripped : Breaker := fun _ => ⟨0, 1000000⟩

/-- C4 (code bug): with no override and all roster models disallowed,
`openaiTriple` does fall back to selecting `OPENAI_MODELS[0]`, but
`callOpenAIOnce` re-checks the breaker and throws
`breaker_tripped:gpt-5-mini` before issuing any request, so no
provider call is attempted at all — even with a transport that would
have succeeded — and the fan-out settles with zero successes and the
single breaker-rejection error. -/
theorem C4_fallback_never_attempted :
    selectModels brAllTripped 0 none = ["gpt-5-mini"] ∧
    (openaiTriple brAllTripped 0 (fun _ => TransportResult.ok (some "hi"))
      [] none).calls = [] ∧
    (openaiTriple brAllTripped 0 (fun _ => TransportResult.ok (some "hi"))
      [] none).successes = [] ∧
    (openaiTriple brAllTripped 0 (fun _ => TransportResult.ok (some "hi"))
      [] none).errors = ["breaker_tripped:gpt-5-mini"] :=
  ⟨rfl, rfl, rfl, rfl⟩

/-! ## The `POST /v1/chat` handler (index.js lines 339-433) -/

/-- The server-owned system prompt (index.js lines 346-357). -/
def SYSTEM_PROMPT : String :=
  "You are the Verum Omnis assistant. Core principles:\n" ++
  "1. Be precise, auditable, and stateless - never store PII\n" ++
  "2. Provide reproducible steps and hash-based references\n" ++
  "3. Never claim legal authority - give transparent reasoning with disclaimers\n" ++
  "4. For file analysis: web service does client-side hashing only\n" ++
  "5. Heavy forensics require the 3GB on-device app or local WASM tools\n" ++
  "6. All evidence handling follows chain-of-custody best practices\n" ++
  "7. Be concise but thorough - favor clarity over verbosity"

def systemPromptMsg : JMsg := ⟨"system", JVal.str SYSTEM_PROMPT⟩

/-- `finalMsgs = [systemPrompt, ...messages.filter(m => m.role !== "system")]`
(index.js line 358). -/
def finalMsgs (client : List JMsg) : List JMsg :=
  systemPromptMsg :: client.filter fun m => m.role != "system"

/-- The per-message validation predicate of index.js line 361:
`typeof m.content !== "string" || m.content.length > 6000`. -/
def contentBad : JVal → Bool
  | JVal.str s => 6000 < s.length
  | JVal.other _ => true

/-- The message reshaping of the `anthropic` branch (index.js lines
384-387): drop system-role messages and coerce every non-assistant
role to `user`. -/
def anthropicUserMsgs (fm : List JMsg) : List JMsg :=
  (fm.filter fun m => m.role != "system").map fun m =>
    ⟨if m.role = "assistant" then "assistant" else "user", m.content⟩

/-- JavaScript `a?.f || b?.f` on possibly-absent strings: the left
operand wins unless it is absent (`undefined`) or empty (falsy). -/
def jsOrOpt (a b : Option String) : Option String :=
  match a with
  | some s => if s = "" then b else some s
  | none => b

/-- A provider API call actually issued by the handler. -/
inductive PCall where
  | openai (model : String) (msgs : List JMsg)
  | anthropic (model : String) (system : String) (msgs : List JMsg)
  | deepseek (model : String) (msgs : List JMsg)
deriving DecidableEq

/-- The conversation a provider call carries, with the Anthropic
`system` parameter rendered as a leading system-role message. -/
def forwardedSeq : PCall → List JMsg
  | PCall.openai _ ms => ms
  | PCall.deepseek _ ms => ms
  | PCall.anthropic _ sys ms => JMsg.mk "system" (JVal.str sys) :: ms

/-- The uniform response envelope of the handler, restricted to the
fields the specification talks about. -/
inductive ChatResp where
  | err (status : Nat) (error : String) (details : List String)
  | okFan (consensus : String) (winnerModel : Option String)
      (message : Option String) (tried : List String) (errors : List String)
  | okSingle (provider : String) (model : String)
deriving DecidableEq

/-- The handler's environment: breaker registry, clock, one transport
oracle per backend, and which API keys are configured (truthy). -/
structure ChatEnv where
  breaker : Breaker
  now : Nat
  tr : String → TransportResult
  anthTr : String → TransportResult
  dsTr : String → TransportResult
  openaiKey : Bool
  anthropicKey : Bool
  deepseekKey : Bool

/-- The request body `{ messages, provider = "openai", model,
temperature = 0.2 }`; `messages = none` models a missing or non-array
field. -/
structure ChatReq where
  messages : Option (List JMsg)
  provider : String
  model : Option String
  temperature : ℚ

/-- Everything observable about one handler invocation. -/
structure ChatOut where
  resp : ChatResp
  breaker : Breaker
  calls : List PCall

/-- The `POST /v1/chat` handler (index.js lines 340-433): validation,
message shaping, then dispatch to the `openai` fan-out or a single
`anthropic`/`deepseek` call (whose non-2xx responses are thrown and
converted to 500 envelopes by the surrounding catch). -/
def handleChat (env : ChatEnv) (req : ChatReq) : ChatOut :=
  match req.messages with
  | none => ⟨ChatResp.err 400 "messages array required" [], env.breaker, []⟩
  | some msgs =>
    if msgs.isEmpty then
      ⟨ChatResp.err 400 "messages array required" [], env.breaker, []⟩
    else
      let fm := finalMsgs msgs
      if 30 < fm.length then
        ⟨ChatResp.err 400 "too_many_messages" [], env.breaker, []⟩
      else if fm.any fun m => contentBad m.content then
        ⟨ChatResp.err 400 "message_too_long" [], env.breaker, []⟩
      else if req.provider = "openai" then
        if !env.openaiKey then
          ⟨ChatResp.err 400 "OPENAIAPIKEY not configured" [], env.breaker, []⟩
        else
          let out := openaiTriple env.breaker env.now env.tr fm req.model
          if out.successes.isEmpty then
            ⟨ChatResp.err 502 "all_models_failed" (out.errors.take 2),
              out.breaker, out.calls.map fun p => PCall.openai p.1 p.2⟩
          else
            ⟨ChatResp.okFan out.consensus
              (jsOrOpt (out.winner.map MResult.model)
                (out.successes.head?.map MResult.model))
              (jsOrOpt (out.winner.map MResult.content)
                (out.successes.head?.map MResult.content))
              (out.successes.map MResult.model) out.errors,
              out.breaker, out.calls.map fun p => PCall.openai p.1 p.2⟩
      else if req.provider = "anthropic" then
        if !env.anthropicKey then
          ⟨ChatResp.err 400 "ANTHROPICAPIKEY not configured" [], env.breaker, []⟩
        else
          let mdl := req.model.getD "claude-3-5-haiku-20241022"
          let call := PCall.anthropic mdl SYSTEM_PROMPT (anthropicUserMsgs fm)
          match env.anthTr mdl with
          | TransportResult.ok _ =>
            ⟨ChatResp.okSingle "anthropic" mdl, env.breaker, [call]⟩
          | TransportResult.httpError st body =>
            ⟨ChatResp.err 500
              ("Anthropic API error: " ++ toString st ++ " - " ++ body) [],
              env.breaker, [call]⟩
          | TransportResult.netError m =>
            ⟨ChatResp.err 500 m [], env.breaker, [call]⟩
      else if req.provider = "deepseek" then
        if !env.deepseekKey then
          ⟨ChatResp.err 400 "DEEPSEEKAPIKEY not configured" [], env.breaker, []⟩
        else
          let mdl := req.model.getD "deepseek-chat"
          let call := PCall.deepseek mdl fm
          match env.dsTr mdl with
          | TransportResult.ok _ =>
            ⟨ChatResp.okSingle "deepseek" mdl, env.breaker, [call]⟩
          | TransportResult.httpError st body =>
            ⟨ChatResp.err 500
              ("DeepSeek API error: " ++ toString st ++ " - " ++ body) [],
              env.breaker, [call]⟩
          | TransportResult.netError m =>
            ⟨ChatResp.err 500 m [], env.breaker, [call]⟩
      else
        ⟨ChatResp.err 400 "unknown_provider"
          ["openai", "anthropic", "deepseek"], env.breaker, []⟩

/-- C6: handler validation fails fast and without side effects: a
missing/non-array or empty `messages` field is rejected with
`messages array required`; more than 30 messages after prepending the
server system prompt is rejected with `too_many_messages`; a combined
message whose content exceeds 6000 characters is rejected with
`message_too_long`; and every such rejection issues no provider call
and leaves the breaker untouched. -/
theorem C6_validation_fail_fast (env : ChatEnv) (req : ChatReq) :
    ((req.messages = none ∨ req.messages = some []) →
      handleChat env req =
        ⟨ChatResp.err 400 "messages array required" [], env.breaker, []⟩) ∧
    (∀ msgs, req.messages = some msgs → msgs ≠ [] →
      30 < (finalMsgs msgs).length →
      handleChat env req =
        ⟨ChatResp.err 400 "too_many_messages" [], env.breaker, []⟩) ∧
    (∀ msgs, req.messages = some msgs → msgs ≠ [] →
      (finalMsgs msgs).length ≤ 30 →
      (∃ m ∈ finalMsgs msgs, ∃ s, m.content = JVal.str s ∧ 6000 < s.length) →
      handleChat env req =
        ⟨ChatResp.err 400 "message_too_long" [], env.breaker, []⟩) := by
  refine ⟨?_, ?_, ?_⟩
  · rintro (h | h) <;> (simp only [handleChat, h]; try rfl)
  · intro msgs hm hne h30
    simp only [handleChat, hm]
    rw [if_neg (by simpa [List.isEmpty_iff] using hne), if_pos h30]
  · intro msgs hm hne h30 hbad
    simp only [handleChat, hm]
    rw [if_neg (by simpa [List.isEmpty_iff] using hne),
      if_neg (by omega : ¬ 30 < (finalMsgs msgs).length), if_pos ?hb]
    case hb =>
      obtain ⟨m, hmem, s, hs, hlen⟩ := hbad
      rw [List.any_eq_true]
      exact ⟨m, hmem, by rw [hs]; exact decide_eq_true hlen⟩

/-- Witness for C6 at concrete inputs: an empty list, a 31-client-
message request, and a 6001-character content are each rejected with
the specified code, no calls, and an unchanged breaker. -/
theorem C6_witness :
    handleChat ⟨fun _ => ⟨1, 7⟩, 0, fun _ => TransportResult.ok none,
        fun _ => TransportResult.ok none, fun _ => TransportResult.ok none,
        true, true, true⟩
      ⟨some (List.replicate 31 ⟨"user", JVal.str "hi"⟩), "openai", none, 0⟩ =
    ⟨ChatResp.err 400 "too_many_messages" [], fun _ => ⟨1, 7⟩, []⟩ ∧
    handleChat ⟨fun _ => ⟨1, 7⟩, 0, fun _ => TransportResult.ok none,
        fun _ => TransportResult.ok none, fun _ => TransportResult.ok none,
        true, true, true⟩
      ⟨some [⟨"user", JVal.str (String.mk (List.replicate 6001 'a'))⟩],
        "openai", none, 0⟩ =
    ⟨ChatResp.err 400 "message_too_long" [], fun _ => ⟨1, 7⟩, []⟩ ∧
    handleChat ⟨fun _ => ⟨1, 7⟩, 0, fun _ => TransportResult.ok none,
        fun _ => TransportResult.ok none, fun _ => TransportResult.ok none,
        true, true, true⟩
      ⟨some [], "openai", none, 0⟩ =
    ⟨ChatResp.err 400 "messages array required" [], fun _ => ⟨1, 7⟩, []⟩ := by
  refine ⟨?_, ?_, ?_⟩
  · exact (C6_validation_fail_fast _ _).2.1 _ rfl (by decide) (by decide)
  · refine (C6_validation_fail_fast _ _).2.2 _ rfl (by decide) (by decide)
      ⟨⟨"user", JVal.str (String.mk (List.replicate 6001 'a'))⟩,
        by simp [finalMsgs, List.filter], String.mk (List.replicate 6001 'a'),
        rfl, by
          show 6000 < (List.replicate 6001 'a').length
          rw [List.length_replicate]
          norm_num⟩
  · exact (C6_validation_fail_fast _ _).1 (Or.inr rfl)

/-- C10: a message in the combined sequence whose `content` is not a
string is rejected — by the same `typeof m.content !== "string" ||
m.content.length > 6000` test as oversized content — with the error
code `message_too_long`, before any provider call is made and with the
breaker untouched (given that the request passes the earlier
`messages array required` and `too_many_messages` checks, which run
first). -/
theorem C10_nonstring_content (env : ChatEnv) (req : ChatReq)
    (msgs : List JMsg) (hm : req.messages = some msgs) (hne : msgs ≠ [])
    (h30 : (finalMsgs msgs).length ≤ 30)
    (hbad : ∃ m ∈ finalMsgs msgs, ∀ s, m.content ≠ JVal.str s) :
    handleChat env req =
      ⟨ChatResp.err 400 "message_too_long" [], env.breaker, []⟩ := by
  simp only [handleChat, hm]
  rw [if_neg (by simpa [List.isEmpty_iff] using hne),
    if_neg (by omega : ¬ 30 < (finalMsgs msgs).length), if_pos ?hb]
  case hb =>
    obtain ⟨m, hmem, hns⟩ := hbad
    rw [List.any_eq_true]
    refine ⟨m, hmem, ?_⟩
    match hv : m.content with
    | JVal.str s => exact absurd hv (hns s)
    | JVal.other t => rw [contentBad]

/-- Witness for C10: a request whose single user message carries a
numeric content is rejected with `message_too_long`, no calls, breaker
unchanged. -/
theorem C10_witness :
    handleChat ⟨fun _ => ⟨1, 7⟩, 0, fun _ => TransportResult.ok none,
        fun _ => TransportResult.ok none, fun _ => TransportResult.ok none,
        true, true, true⟩
      ⟨some [⟨"user", JVal.other "number"⟩], "openai", none, 0⟩ =
    ⟨ChatResp.err 400 "message_too_long" [], fun _ => ⟨1, 7⟩, []⟩ :=
  C10_nonstring_content _ _ [⟨"user", JVal.other "number"⟩] rfl (by decide)
    (by decide)
    ⟨⟨"user", JVal.other "number"⟩, by simp [finalMsgs, List.filter],
      fun s => by simp⟩

/-! ### Message-shaping claims -/

/-- Every provider call recorded by `openaiTriple` forwards exactly
the message sequence it was handed. -/
theorem openaiTriple_calls_msgs (br : Breaker) (now : Nat)
    (tr : String → TransportResult) (ms : List JMsg) (ov : Option String) :
    ∀ p ∈ (openaiTriple br now tr ms ov).calls, p.2 = ms := by
  intro p hp
  unfold openaiTriple at hp
  simp only at hp
  obtain ⟨q, hq, hsome⟩ := List.mem_filterMap.mp hp
  split at hsome
  · cases Option.some.inj hsome
    rfl
  · exact absurd hsome (by simp)

theorem coerceRole_id {l : List JMsg}
    (h : ∀ m ∈ l, m.role = "user" ∨ m.role = "assistant") :
    (l.map fun m =>
      (⟨if m.role = "assistant" then "assistant" else "user", m.content⟩ : JMsg))
      = l := by
  induction l with
  | nil => rfl
  | cons a t ih =>
    have ha := h a (List.mem_cons_self a t)
    have ht := ih fun m hm => h m (List.mem_cons_of_mem a hm)
    simp only [List.map_cons, ht]
    cases a with
    | mk r cnt =>
      simp only at ha
      rcases ha with ha | ha <;> subst ha <;> simp

/-- Under the ChatMessage data model (roles `system`/`user`/
`assistant`), the Anthropic reshaping of `finalMsgs` is exactly the
client messages with system-role ones dropped. -/
theorem anthropicUserMsgs_finalMsgs (msgs : List JMsg)
    (hroles : ∀ m ∈ msgs,
      m.role = "system" ∨ m.role = "user" ∨ m.role = "assistant") :
    anthropicUserMsgs (finalMsgs msgs) =
      msgs.filter fun m => m.role != "system" := by
  unfold anthropicUserMsgs finalMsgs
  rw [List.filter_cons_of_neg (by simp [systemPromptMsg])]
  rw [List.filter_filter]
  have hff : (msgs.filter fun m => (m.role != "system") && (m.role != "system"))
      = msgs.filter fun m => m.role != "system" := by
    apply List.filter_congr
    intro m _
    exact Bool.and_self _
  rw [hff]
  apply coerceRole_id
  intro m hm
  have hmem := List.mem_filter.mp hm
  rcases hroles m hmem.1 with hs | h
  · exact absurd hmem.2 (by simp [hs])
  · exact h

/-- C9: for every chat request that passes validation, the message
sequence forwarded to any backend is the server-owned system prompt
followed by exactly the client messages whose role is not `system`, in
their original order (for Anthropic, the prompt travels as the
`system` parameter and the remaining messages keep their roles and
contents under the ChatMessage role model). -/
theorem C9_forwarded_sequence (env : ChatEnv) (req : ChatReq)
    (msgs : List JMsg) (hm : req.messages = some msgs) (hne : msgs ≠ [])
    (h30 : ¬ 30 < (finalMsgs msgs).length)
    (hok : ((finalMsgs msgs).any fun m => contentBad m.content) = false)
    (hroles : ∀ m ∈ msgs,
      m.role = "system" ∨ m.role = "user" ∨ m.role = "assistant") :
    ∀ c ∈ (handleChat env req).calls,
      forwardedSeq c = systemPromptMsg ::
        (msgs.filter fun m => m.role != "system") := by
  intro c hc
  simp only [handleChat, hm] at hc
  rw [if_neg (by simpa [List.isEmpty_iff] using hne), if_neg h30,
    if_neg (by simp [hok])] at hc
  split at hc
  · -- openai
    split at hc
    · simp at hc
    · have hmap : ∀ q ∈ (openaiTriple env.breaker env.now env.tr
          (finalMsgs msgs) req.model).calls,
          forwardedSeq (PCall.openai q.1 q.2) = systemPromptMsg ::
            (msgs.filter fun m => m.role != "system") := by
        intro q hq
        have := openaiTriple_calls_msgs env.breaker env.now env.tr
          (finalMsgs msgs) req.model q hq
        rw [forwardedSeq, this, finalMsgs]
      split at hc <;>
        (simp only at hc
         obtain ⟨q, hq, rfl⟩ := List.mem_map.mp hc
         exact hmap q hq)
  · split at hc
    · -- anthropic
      split at hc
      · simp at hc
      · have hcall : c = PCall.anthropic
            (req.model.getD "claude-3-5-haiku-20241022") SYSTEM_PROMPT
            (anthropicUserMsgs (finalMsgs msgs)) := by
          split at hc <;> simpa using hc
        rw [hcall, forwardedSeq, anthropicUserMsgs_finalMsgs msgs hroles]
        rfl
    · split at hc
      · -- deepseek
        split at hc
        · simp at hc
        · have hcall : c = PCall.deepseek (req.model.getD "deepseek-chat")
              (finalMsgs msgs) := by
            split at hc <;> simpa using hc
          rw [hcall, forwardedSeq, finalMsgs]
      · simp at hc

/-- Environment and request for the C9 witness: a deepseek request
with one client-system message (to be dropped) and one user message. -/
def envD : ChatEnv :=
  ⟨fun _ => ⟨0, 0⟩, 0, fun _ => TransportResult.ok (some "ok"),
    fun _ => TransportResult.ok (some "ok"),
    fun _ => TransportResult.ok (some "ok"), true, true, true⟩

def reqD : ChatReq :=
  ⟨some [⟨"system", JVal.str "evil override"⟩, ⟨"user", JVal.str "hi"⟩],
    "deepseek", none, 0⟩

set_option maxRecDepth 8192 in
/-- Witness for C9 at a concrete input: the single deepseek call the
handler issues forwards the server prompt followed by the user message
alone (the client-supplied system message is dropped). -/
theorem C9_witness :
    (handleChat envD reqD).calls = [PCall.deepseek "deepseek-chat"
      (finalMsgs [⟨"system", JVal.str "evil override"⟩,
        ⟨"user", JVal.str "hi"⟩])] ∧
    forwardedSeq (PCall.deepseek "deepseek-chat"
      (finalMsgs [⟨"system", JVal.str "evil override"⟩,
        ⟨"user", JVal.str "hi"⟩]))
      = systemPromptMsg :: [⟨"user", JVal.str "hi"⟩] := by
  have hcalls : (handleChat envD reqD).calls = [PCall.deepseek "deepseek-chat"
      (finalMsgs [⟨"system", JVal.str "evil override"⟩,
        ⟨"user", JVal.str "hi"⟩])] := rfl
  refine ⟨hcalls, ?_⟩
  exact C9_forwarded_sequence envD reqD
    [⟨"system", JVal.str "evil override"⟩, ⟨"user", JVal.str "hi"⟩]
    rfl (by decide) (by decide) (by decide) (by decide) _
    (by rw [hcalls]; exact List.mem_singleton.mpr rfl)

/-! ### C1: what the handler returns when consensus fails with
successes present -/

theorem openaiTriple_consensus_eq (br : Breaker) (now : Nat)
    (tr : String → TransportResult) (ms : List JMsg) (ov : Option String) :
    (openaiTriple br now tr ms ov).consensus
      = (consensus2of3 (openaiTriple br now tr ms ov).successes).consensus := rfl

theorem openaiTriple_winner_eq (br : Breaker) (now : Nat)
    (tr : String → TransportResult) (ms : List JMsg) (ov : Option String) :
    (openaiTriple br now tr ms ov).winner
      = (consensus2of3 (openaiTriple br now tr ms ov).successes).winner := rfl

theorem simScore_eq_zero {a b : String}
    (h : tokenSet a ∩ tokenSet b = ∅) : simScore a b = 0 := by
  unfold simScore
  rw [h]
  simp

/-- The successful branch of the `openai` dispatch: when validation
passes and at least one model succeeded, the handler answers with the
uniform fan-out envelope built from the `openaiTriple` outcome. -/
theorem handleChat_openai_ok (env : ChatEnv) (req : ChatReq)
    (msgs : List JMsg) (hm : req.messages = some msgs) (hne : msgs ≠ [])
    (h30 : ¬ 30 < (finalMsgs msgs).length)
    (hok : ((finalMsgs msgs).any fun m => contentBad m.content) = false)
    (hp : req.provider = "openai") (hkey : env.openaiKey = true)
    (hsne : (openaiTriple env.breaker env.now env.tr (finalMsgs msgs)
      req.model).successes.isEmpty = false) :
    handleChat env req = ⟨ChatResp.okFan
      (openaiTriple env.breaker env.now env.tr (finalMsgs msgs)
        req.model).consensus
      (jsOrOpt ((openaiTriple env.breaker env.now env.tr (finalMsgs msgs)
          req.model).winner.map MResult.model)
        ((openaiTriple env.breaker env.now env.tr (finalMsgs msgs)
          req.model).successes.head?.map MResult.model))
      (jsOrOpt ((openaiTriple env.breaker env.now env.tr (finalMsgs msgs)
          req.model).winner.map MResult.content)
        ((openaiTriple env.breaker env.now env.tr (finalMsgs msgs)
          req.model).successes.head?.map MResult.content))
      ((openaiTriple env.breaker env.now env.tr (finalMsgs msgs)
        req.model).successes.map MResult.model)
      (openaiTriple env.breaker env.now env.tr (finalMsgs msgs)
        req.model).errors,
      (openaiTriple env.breaker env.now env.tr (finalMsgs msgs)
        req.model).breaker,
      (openaiTriple env.breaker env.now env.tr (finalMsgs msgs)
        req.model).calls.map fun p => PCall.openai p.1 p.2⟩ := by
  simp only [handleChat, hm]
  rw [if_neg (by simpa [List.isEmpty_iff] using hne), if_neg h30,
    if_neg (by simp [hok]), if_pos hp, if_neg (by simp [hkey]),
    if_neg (by simp [hsne])]

/-- A two-success consensus whose single pair scores below the
threshold fails with no winner. -/
theorem consensus2of3_two_fail (r1 r2 : MResult)
    (h : simScore r1.content r2.content < 0.6) :
    (consensus2of3 [r1, r2]).consensus = "fail" ∧
      (consensus2of3 [r1, r2]).winner = none := by
  have hhead : (sortSims (pairSims [r1, r2])).headD dSim =
      ⟨0, 1, simScore r1.content r2.content⟩ := by
    rw [headD_sortSims]
    rfl
  simp only [consensus2of3]
  rw [hhead, if_neg (not_le.mpr h)]
  exact ⟨rfl, rfl⟩

/-- A three-success consensus whose pairs all score zero fails with no
winner. -/
theorem consensus2of3_three_fail (r1 r2 r3 : MResult)
    (h12 : simScore r1.content r2.content = 0)
    (h13 : simScore r1.content r3.content = 0)
    (h23 : simScore r2.content r3.content = 0) :
    (consensus2of3 [r1, r2, r3]).consensus = "fail" ∧
      (consensus2of3 [r1, r2, r3]).winner = none := by
  have hpair : pairSims [r1, r2, r3] =
      [⟨0, 1, simScore r1.content r2.content⟩,
       ⟨0, 2, simScore r1.content r3.content⟩,
       ⟨1, 2, simScore r2.content r3.content⟩] := rfl
  have hpair0 : pairSims [r1, r2, r3] =
      [⟨0, 1, (0 : ℚ)⟩, ⟨0, 2, 0⟩, ⟨1, 2, 0⟩] := by
    rw [hpair, h12, h13, h23]
  have hcond : (([⟨0, 2, (0 : ℚ)⟩, ⟨1, 2, 0⟩] : List SimEntry).all
      fun b => decide (b.score ≤ (⟨0, 1, (0 : ℚ)⟩ : SimEntry).score)) = true := by
    simp
  have hbest : bestSim dSim (pairSims [r1, r2, r3]) = ⟨0, 1, (0 : ℚ)⟩ := by
    rw [hpair0]
    simp only [bestSim]
    rw [if_pos hcond]
  have hhead : (sortSims (pairSims [r1, r2, r3])).headD dSim =
      ⟨0, 1, (0 : ℚ)⟩ := by
    rw [headD_sortSims, hbest]
  simp only [consensus2of3]
  rw [hhead, if_neg (by norm_num)]
  exact ⟨rfl, rfl⟩

/-- Transport for the C1 counterexample: all three roster models
succeed with mutually dissimilar contents. -/
def trC1 : String → TransportResult := fun m =>
  if m = "gpt-5-mini" then TransportResult.ok (some "aa bb")
  else if m = "gpt-4o-mini" then TransportResult.ok (some "cc dd")
  else TransportResult.ok (some "ee ff")

def envC1 : ChatEnv := ⟨fun _ => ⟨0, 0⟩, 0, trC1, trC1, trC1, true, true, true⟩

def reqC1 : ChatReq := ⟨some [⟨"user", JVal.str "hi"⟩], "openai", none, 0⟩

set_option maxRecDepth 8192 in
/-- C1 counterexample: with three successes whose pairwise similarity
is all below 0.6 (verdict `fail` with successes present), the handler
does NOT report "no answer": it returns the `ok` fan-out envelope with
consensus `"fail"` and `message` equal to the first success's content
`"aa bb"` — the content of an uncorroborated success — refuting the
claim that such an outcome is treated as a failure for the caller. -/
theorem C1_counterexample :
    (handleChat envC1 reqC1).resp = ChatResp.okFan "fail"
      (some "gpt-5-mini") (some "aa bb")
      ["gpt-5-mini", "gpt-4o-mini", "gpt-4o"] [] := by
  have hsucc : (openaiTriple envC1.breaker envC1.now envC1.tr
      (finalMsgs [⟨"user", JVal.str "hi"⟩]) reqC1.model).successes =
      [⟨"gpt-5-mini", "aa bb"⟩, ⟨"gpt-4o-mini", "cc dd"⟩,
       ⟨"gpt-4o", "ee ff"⟩] := rfl
  have hc := consensus2of3_three_fail ⟨"gpt-5-mini", "aa bb"⟩
    ⟨"gpt-4o-mini", "cc dd"⟩ ⟨"gpt-4o", "ee ff"⟩
    (simScore_eq_zero (by decide)) (simScore_eq_zero (by decide))
    (simScore_eq_zero (by decide))
  have hcons : (openaiTriple envC1.breaker envC1.now envC1.tr
      (finalMsgs [⟨"user", JVal.str "hi"⟩]) reqC1.model).consensus = "fail" := by
    rw [openaiTriple_consensus_eq, hsucc]
    exact hc.1
  have hwin : (openaiTriple envC1.breaker envC1.now envC1.tr
      (finalMsgs [⟨"user", JVal.str "hi"⟩]) reqC1.model).winner = none := by
    rw [openaiTriple_winner_eq, hsucc]
    exact hc.2
  rw [handleChat_openai_ok envC1 reqC1 [⟨"user", JVal.str "hi"⟩] rfl
    (by decide) (by decide) (by decide) rfl rfl (by rw [hsucc]; rfl)]
  rw [hcons, hwin]
  rfl

/-- C1 (amended): for a validated `openai` request whose fan-out ends
with successes present but verdict `fail` (max pairwise similarity
below 0.6), the handler does not report a failure: only the
zero-success case maps to the `all_models_failed` error, while here it
returns the 200 `ok` envelope carrying consensus `"fail"`, no winner —
so `winnerModel` and `message` fall back to the first success's model
and content (an uncorroborated answer the caller must detect via the
consensus field). -/
theorem C1_fail_returns_first_success (env : ChatEnv) (req : ChatReq)
    (msgs : List JMsg) (hm : req.messages = some msgs) (hne : msgs ≠ [])
    (h30 : ¬ 30 < (finalMsgs msgs).length)
    (hok : ((finalMsgs msgs).any fun m => contentBad m.content) = false)
    (hp : req.provider = "openai") (hkey : env.openaiKey = true)
    (hsne : (openaiTriple env.breaker env.now env.tr (finalMsgs msgs)
      req.model).successes ≠ [])
    (hfail : (openaiTriple env.breaker env.now env.tr (finalMsgs msgs)
      req.model).consensus = "fail") :
    (handleChat env req).resp = ChatResp.okFan "fail"
      ((openaiTriple env.breaker env.now env.tr (finalMsgs msgs)
        req.model).successes.head?.map MResult.model)
      ((openaiTriple env.breaker env.now env.tr (finalMsgs msgs)
        req.model).successes.head?.map MResult.content)
      ((openaiTriple env.breaker env.now env.tr (finalMsgs msgs)
        req.model).successes.map MResult.model)
      (openaiTriple env.breaker env.now env.tr (finalMsgs msgs)
        req.model).errors := by
  have hwin : (openaiTriple env.breaker env.now env.tr (finalMsgs msgs)
      req.model).winner = none := by
    rw [openaiTriple_winner_eq]
    exact consensus_fail_no_winner _
      (by rw [← openaiTriple_consensus_eq]; exact hfail)
  rw [handleChat_openai_ok env req msgs hm hne h30 hok hp hkey
    (by simpa [List.isEmpty_iff] using hsne)]
  rw [hfail, hwin]
  rfl

/-- Transport for the C1 witness: two dissimilar successes and one
HTTP failure. -/
def trW : String → TransportResult := fun m =>
  if m = "gpt-5-mini" then TransportResult.ok (some "pp qq")
  else if m = "gpt-4o-mini" then TransportResult.httpError 500 "boom"
  else TransportResult.ok (some "rr ss")

def envW : ChatEnv := ⟨fun _ => ⟨0, 0⟩, 0, trW, trW, trW, true, true, true⟩

def reqW : ChatReq := ⟨some [⟨"user", JVal.str "hi"⟩], "openai", none, 0⟩

set_option maxRecDepth 8192 in
/-- Witness for the amended C1 at a concrete input: two dissimilar
successes (the third model failing with a 500) yield verdict `fail`,
and the handler returns the envelope whose message is the first
success's content. -/
theorem C1_witness :
    (handleChat envW reqW).resp = ChatResp.okFan "fail"
      ((openaiTriple envW.breaker envW.now envW.tr
        (finalMsgs [⟨"user", JVal.str "hi"⟩]) reqW.model).successes.head?.map
          MResult.model)
      ((openaiTriple envW.breaker envW.now envW.tr
        (finalMsgs [⟨"user", JVal.str "hi"⟩]) reqW.model).successes.head?.map
          MResult.content)
      ((openaiTriple envW.breaker envW.now envW.tr
        (finalMsgs [⟨"user", JVal.str "hi"⟩]) reqW.model).successes.map
          MResult.model)
      (openaiTriple envW.breaker envW.now envW.tr
        (finalMsgs [⟨"user", JVal.str "hi"⟩]) reqW.model).errors := by
  have hsucc : (openaiTriple envW.breaker envW.now envW.tr
      (finalMsgs [⟨"user", JVal.str "hi"⟩]) reqW.model).successes =
      [⟨"gpt-5-mini", "pp qq"⟩, ⟨"gpt-4o", "rr ss"⟩] := rfl
  have hc := consensus2of3_two_fail ⟨"gpt-5-mini", "pp qq"⟩ ⟨"gpt-4o", "rr ss"⟩
    (by rw [show simScore "pp qq" "rr ss" = 0 from simScore_eq_zero (by decide)]
        norm_num)
  exact C1_fail_returns_first_success envW reqW [⟨"user", JVal.str "hi"⟩] rfl
    (by decide) (by decide) (by decide) rfl rfl
    (by rw [hsucc]; simp)
    (by rw [openaiTriple_consensus_eq, hsucc]; exact hc.1)

end VerumWeb
